import Mathlib

/-!
Verification of the real-time audio front-end of the HomeAutomation satellite.

Shallow embedding of the relevant code:
- satellites/speech/respeaker_xvf3800.py : ReSpeakerGate (constructor clamping,
  the hardware poll loop with dual hysteresis, the rms fallback gate, is_open)
- satellites/speech/speech_engine.py : SpeechEngine (constructor, rms wake gate,
  pre-roll buffer, the per-frame state machine, listener exception flow)
- satellites/speech/audio.py : bounded frame queue with drop-oldest policy

Numeric values (energies, thresholds, samples) are modelled as rationals; the
Python floats are used only in comparisons and simple arithmetic here, so the
rational model is exact up to float rounding, which no claim depends on.
-/

namespace HomeAutomation

/-! ## ReSpeakerGate configuration (respeaker_xvf3800.py, lines 252-296) -/
structure ReSpeakerGateCfg where
  mode : String
  pollIntervalS : ℚ
  speechEnergyHigh : ℚ
  speechEnergyLow : ℚ
  openConsecutivePolls : ℕ
  closeConsecutivePolls : ℕ
  rmsThreshold : ℚ
  rmsHoldFrames : ℕ
deriving DecidableEq

/-- Constructor of ReSpeakerGate (lines 264-278): every numeric option is
clamped, and sub-unit energy thresholds are both replaced by the
hardware-scale defaults 50000.0 / 5000.0 (lines 271-274). -/
def reSpeakerGateInit (mode : String) (pollIntervalMs : ℤ)
    (speechEnergyHigh speechEnergyLow : ℚ)
    (openConsecutivePolls closeConsecutivePolls : ℤ)
    (rmsThreshold : ℚ) (rmsHoldFrames : ℤ) : ReSpeakerGateCfg :=
  { mode := mode
    pollIntervalS := max (1 / 100) ((pollIntervalMs : ℚ) / 1000)
    speechEnergyHigh :=
      if speechEnergyHigh ≤ 1 ∧ speechEnergyLow ≤ 1 then 50000 else speechEnergyHigh
    speechEnergyLow :=
      if speechEnergyHigh ≤ 1 ∧ speechEnergyLow ≤ 1 then 5000 else speechEnergyLow
    openConsecutivePolls := (max 1 openConsecutivePolls).toNat
    closeConsecutivePolls := (max 1 closeConsecutivePolls).toNat
    rmsThreshold := max 0 rmsThreshold
    rmsHoldFrames := (max 0 rmsHoldFrames).toNat }

/-! ## ReSpeakerGate mutable state (lines 280-286) -/
structure RGateSt where
  xvfOpen : Bool
  xvfOpenHits : ℕ
  xvfCloseHits : ℕ
  lastEnergy : Option ℚ
  rmsHold : ℕ
  lastGateOpen : Bool
deriving DecidableEq

/-- Initial gate state as set by the constructor (lines 281-286). -/
def rGateInitSt : RGateSt :=
  { xvfOpen := false, xvfOpenHits := 0, xvfCloseHits := 0,
    lastEnergy := none, rmsHold := 0, lastGateOpen := false }

/-- One successful iteration of the poll loop body (lines 301-316): record the
energy reading, then update the dual-hysteresis counters and the derived
open/closed flag. A failed poll executes none of this (lines 317-318). -/
def pollStep (cfg : ReSpeakerGateCfg) (energy : ℚ) (st : RGateSt) : RGateSt :=
  let st1 := { st with lastEnergy := some energy }
  if cfg.speechEnergyHigh ≤ energy then
    let hits := st1.xvfOpenHits + 1
    { st1 with
      xvfOpenHits := hits
      xvfCloseHits := 0
      xvfOpen := if cfg.openConsecutivePolls ≤ hits then true else st1.xvfOpen }
  else if energy ≤ cfg.speechEnergyLow then
    let hits := st1.xvfCloseHits + 1
    { st1 with
      xvfCloseHits := hits
      xvfOpenHits := 0
      xvfOpen := if cfg.closeConsecutivePolls ≤ hits then false else st1.xvfOpen }
  else
    { st1 with xvfOpenHits := 0, xvfCloseHits := 0 }

/-- The poll loop run over a finite sequence of successful energy readings. -/
def pollRun (cfg : ReSpeakerGateCfg) (st : RGateSt) : List ℚ → RGateSt
  | [] => st
  | e :: es => pollRun cfg (pollStep cfg e st) es

/-! ## The rms gate

Both `SpeechEngine._rms_gate_is_open` (speech_engine.py lines 139-149) and
`ReSpeakerGate._rms_open` (respeaker_xvf3800.py lines 321-331) compute
`rms = sqrt(mean(frame*frame) + 1e-12)` and compare `rms >= threshold`.
For a positive threshold this comparison is equivalent to
`mean(frame*frame) + 1e-12 >= threshold^2` (square roots are monotone and both
sides are nonnegative), which is how the comparison is embedded here, keeping
the model inside exact rational arithmetic. -/

/-- Mean of squared samples plus the 1e-12 stabiliser, i.e. the square of the
rms value computed at speech_engine.py line 142 / respeaker_xvf3800.py line 324. -/
def rmsSq (frame : List ℚ) : ℚ :=
  (frame.map (fun x => x * x)).sum / (frame.length : ℚ) + 1 / 10 ^ 12

/-- SpeechEngine._rms_gate_is_open (speech_engine.py lines 139-149), returning
the verdict together with the updated hold counter. -/
def rmsGateIsOpen (wakeRmsGate : ℚ) (holdFrames : ℕ) (hold : ℕ)
    (frame : List ℚ) : Bool × ℕ :=
  if wakeRmsGate ≤ 0 then (true, hold)
  else if wakeRmsGate ^ 2 ≤ rmsSq frame then (true, holdFrames)
  else if 0 < hold then (true, hold - 1)
  else (false, hold)

/-- ReSpeakerGate._rms_open (respeaker_xvf3800.py lines 321-331); the body is
the same single-threshold hold-based hysteresis as the engine version. -/
def rmsOpen (rmsThreshold : ℚ) (rmsHoldFrames : ℕ) (hold : ℕ)
    (frame : List ℚ) : Bool × ℕ :=
  if rmsThreshold ≤ 0 then (true, hold)
  else if rmsThreshold ^ 2 ≤ rmsSq frame then (true, rmsHoldFrames)
  else if 0 < hold then (true, hold - 1)
  else (false, hold)

/-- The rms gate evaluated over a sequence of frames, collecting the per-frame
verdicts and the final hold counter. -/
def rmsGateRun (thr : ℚ) (hf : ℕ) (hold : ℕ) : List (List ℚ) → List Bool × ℕ
  | [] => ([], hold)
  | f :: fs =>
    let r := rmsGateIsOpen thr hf hold f
    let rest := rmsGateRun thr hf r.2 fs
    (r.1 :: rest.1, rest.2)

/-- ReSpeakerGate.is_open (respeaker_xvf3800.py lines 333-351). The
`xvfEnabled` flag is the `_xvf_enabled` field computed at line 290 (mode is
xvf or hybrid, and the hardware control is available). -/
def reSpeakerIsOpen (cfg : ReSpeakerGateCfg) (xvfEnabled : Bool) (st : RGateSt)
    (frame : List ℚ) : Bool × RGateSt :=
  let r := rmsOpen cfg.rmsThreshold cfg.rmsHoldFrames st.rmsHold frame
  let st1 := { st with rmsHold := r.2 }
  let energyReady := st1.lastEnergy.isSome
  let result :=
    if cfg.mode = "rms" then r.1
    else if cfg.mode = "xvf" then (if xvfEnabled then st1.xvfOpen else r.1)
    else (if xvfEnabled then (if energyReady then st1.xvfOpen else r.1) else r.1)
  (result, { st1 with lastGateOpen := result })

/-! ## Dual hysteresis of the poll loop (claim C3)

The two hit counters of the poll loop count, at every point of a run, exactly
the length of the trailing streak of polls taken in the corresponding branch.
`hitCount` is that streak length, written as the fold the loop performs. -/
def hitCount (p : ℚ → Bool) : ℕ → List ℚ → ℕ
  | n, [] => n
  | n, e :: es => hitCount p (if p e then n + 1 else 0) es

/-! ## SpeechEngine configuration (speech_engine.py, lines 36-74) -/
structure SpeechEngineCfg where
  sampleRate : ℕ
  inputGain : ℚ
  wakeRmsGate : ℚ
  wakeGateHoldFrames : ℕ
  wakePrerollEnabled : Bool
  wakePrerollMs : ℕ
  wakePrerollMaxSamples : ℕ
  maxUtteranceS : ℚ
deriving DecidableEq

/-- Constructor of SpeechEngine (lines 52-62): hold frames and preroll
milliseconds are clamped to at least 0, and the preroll cap in samples is
the integer part of sample_rate * preroll_ms / 1000. -/
def speechEngineInit (sampleRate : ℕ) (maxUtteranceS inputGain wakeRmsGate : ℚ)
    (wakeGateHoldFrames : ℤ) (wakePrerollEnabled : Bool)
    (wakePrerollMs : ℤ) : SpeechEngineCfg :=
  { sampleRate := sampleRate
    inputGain := inputGain
    wakeRmsGate := wakeRmsGate
    wakeGateHoldFrames := (max 0 wakeGateHoldFrames).toNat
    wakePrerollEnabled := wakePrerollEnabled
    wakePrerollMs := (max 0 wakePrerollMs).toNat
    wakePrerollMaxSamples := sampleRate * (max 0 wakePrerollMs).toNat / 1000
    maxUtteranceS := maxUtteranceS }

/-! ## Claim C6: the pre-roll buffer never exceeds its configured cap -/
structure PrerollState where
  frames : List (List ℚ)
  samples : ℕ
deriving DecidableEq

def emptyPreroll : PrerollState := ⟨[], 0⟩

/-- The while loop of _append_preroll (speech_engine.py lines 186-188):
pop the oldest buffered frame while the sample total exceeds the cap. -/
def prerollEvict (M : ℕ) : List (List ℚ) → ℕ → List (List ℚ) × ℕ
  | [], sm => ([], sm)
  | old :: rest, sm =>
    if M < sm then prerollEvict M rest (sm - old.length)
    else (old :: rest, sm)

/-- SpeechEngine._append_preroll (speech_engine.py lines 180-188): no-op when
the cap is zero, otherwise push the frame, add its sample count, and evict
from the front while over the cap. -/
def appendPreroll (M : ℕ) (st : PrerollState) (frame : List ℚ) : PrerollState :=
  if M = 0 then st
  else
    let r := prerollEvict M (st.frames ++ [frame]) (st.samples + frame.length)
    ⟨r.1, r.2⟩

/-- All pre-roll appends performed over a run of gate-closed listening frames. -/
def appendAll (M : ℕ) (st : PrerollState) : List (List ℚ) → PrerollState
  | [] => st
  | f :: fs => appendAll M (appendPreroll M st f) fs

/-! ## The per-frame state machine (speech_engine.py lines 96-243)

The wakeword detector and the VAD are external inference engines; the step
functions below record every operation the engine performs on them (and every
outward callback) as an explicit call trace, in program order. The detector
is abstracted by a predicate giving, per frame, whether process returns an
event; the per-frame gate verdict, the VAD segment-ready flag, the wall-clock
timeout comparison and the audio the VAD yields are inputs of the step. -/
inductive EState where
  | listen
  | capture
deriving DecidableEq

inductive Call where
  | wwProcess (frame : List ℚ)
  | onWake
  | vadReset
  | vadClear
  | vadAccept (frame : List ℚ)
  | emitState (s : String)
  | onUtteranceEnded (samples : List ℚ) (reason : String)
deriving DecidableEq

structure EngineSt where
  state : EState
  lastGateOpen : Option Bool
  gateJustOpened : Bool
  preroll : PrerollState
  uttBuf : List (List ℚ)
deriving DecidableEq

/-- Engine state as left by the constructor (lines 61-74). -/
def engineInitSt : EngineSt :=
  { state := EState.listen, lastGateOpen := none, gateJustOpened := false,
    preroll := emptyPreroll, uttBuf := [] }

/-- The transition bookkeeping of _gate_is_open (lines 165-177): the
just-opened flag is set exactly on a transition to an open verdict. -/
def gateIsOpenUpd (st : EngineSt) (gateOpen : Bool) : EngineSt :=
  if st.lastGateOpen = some gateOpen then { st with gateJustOpened := false }
  else { st with gateJustOpened := gateOpen, lastGateOpen := some gateOpen }

/-- listen_wakeword (lines 198-216): process the frame; on detection fire the
wake callback, reset the VAD, seed the utterance buffer with the triggering
frame, switch to capture and emit the two state signals; otherwise clear the
VAD. -/
def listenWakewordStep (det : List ℚ → Bool) (frame : List ℚ) (st : EngineSt) :
    EngineSt × List Call :=
  if det frame then
    ({ st with state := EState.capture, uttBuf := [frame] },
      [Call.wwProcess frame, Call.onWake, Call.vadReset,
        Call.emitState "wake_detected", Call.emitState "capturing_utterance"])
  else
    (st, [Call.wwProcess frame, Call.vadClear])

/-- _replay_preroll_for_wakeword (lines 190-196): feed the buffered frames
through listen_wakeword in order, stopping at the first detection. -/
def replayPreroll (det : List ℚ → Bool) (st : EngineSt) :
    List (List ℚ) → EngineSt × List Call
  | [] => (st, [])
  | f :: fs =>
    let r := listenWakewordStep det f st
    if r.1.state = EState.capture then r
    else
      let rest := replayPreroll det r.1 fs
      (rest.1, r.2 ++ rest.2)

/-- The LISTEN_WAKEWORD branch of the frame loop (lines 110-121): append the
frame to the pre-roll if enabled, update the gate-transition bookkeeping for
the verdict the gate reported, and only when the gate is open touch the
detector (replaying the pre-roll on a fresh open transition, feeding the
frame directly otherwise). -/
def listenFrameStep (cfg : SpeechEngineCfg) (det : List ℚ → Bool) (st : EngineSt)
    (gateOpen : Bool) (frame : List ℚ) : EngineSt × List Call :=
  let st1 :=
    if cfg.wakePrerollEnabled then
      { st with preroll := appendPreroll cfg.wakePrerollMaxSamples st.preroll frame }
    else st
  let st2 := gateIsOpenUpd st1 gateOpen
  if gateOpen then
    if cfg.wakePrerollEnabled && st2.gateJustOpened then
      replayPreroll det st2 st2.preroll.frames
    else
      listenWakewordStep det frame st2
  else
    (st2, [])

/-- capture_utterance (lines 218-243): when the VAD reports a ready segment
or the timeout elapsed, emit the utterance (reason vad when the VAD was
ready, timeout otherwise; raw buffer as audio fallback), reset the VAD,
clear the buffer, return to listening, and emit the closing state signals. -/
def captureUtteranceStep (speechCaptured timedOut : Bool) (vadSamples : List ℚ)
    (st : EngineSt) : EngineSt × List Call :=
  if speechCaptured || timedOut then
    let reason := if speechCaptured then "vad" else "timeout"
    let samples :=
      if vadSamples.isEmpty && !st.uttBuf.isEmpty then st.uttBuf.flatten else vadSamples
    ({ st with state := EState.listen, uttBuf := [] },
      [Call.onUtteranceEnded samples reason, Call.vadReset,
        Call.emitState (if timedOut then "utterance_timeout" else "utterance_complete"),
        Call.emitState "idle"])
  else (st, [])

/-- One iteration of the frame loop (lines 109-125), dispatching on the
current engine state. -/
def engineStep (cfg : SpeechEngineCfg) (det : List ℚ → Bool)
    (gateOpen speechCaptured timedOut : Bool) (vadSamples : List ℚ)
    (st : EngineSt) (frame : List ℚ) : EngineSt × List Call :=
  match st.state with
  | EState.listen => listenFrameStep cfg det st gateOpen frame
  | EState.capture =>
    let st1 := { st with uttBuf := st.uttBuf ++ [frame] }
    let r := captureUtteranceStep speechCaptured timedOut vadSamples st1
    (r.1, Call.vadAccept frame :: r.2)

/-- The end reason carried by the utterance-ended callback of a call trace,
when the trace begins with a finalization. -/
def endReason (calls : List Call) : Option String :=
  match calls with
  | Call.onUtteranceEnded _ r :: _ => some r
  | _ => none

/-! ## Listener exception flow (claim C7)

Callbacks that can raise are modelled in Except: an exception in the Python
callback is an error value. _emit_state (lines 132-137) wraps the state
listener in try/except and logs; the wake callback (line 205) and the
utterance-ended callback (line 231) are invoked with no surrounding
try/except, so their exceptions travel up through the frame loop. -/
def emitState (listener : Option (String → Except String Unit)) (s : String) :
    Except String Unit :=
  match listener with
  | none => Except.ok ()
  | some f =>
    match f s with
    | Except.ok _ => Except.ok ()
    | Except.error _ => Except.ok ()

/-- Effect flow of listen_wakeword on a detected frame (lines 198-213). -/
def listenWakewordEffects (onWake : Except String Unit)
    (listener : Option (String → Except String Unit)) (detected : Bool) :
    Except String Bool :=
  if detected then
    match onWake with
    | Except.error e => Except.error e
    | Except.ok _ =>
      match emitState listener "wake_detected" with
      | Except.error e => Except.error e
      | Except.ok _ =>
        match emitState listener "capturing_utterance" with
        | Except.error e => Except.error e
        | Except.ok _ => Except.ok true
  else Except.ok false

/-- Effect flow of capture_utterance on a finalizing frame (lines 218-236). -/
def captureUtteranceEffects (onUtt : Except String Unit)
    (listener : Option (String → Except String Unit)) (finalize timedOut : Bool) :
    Except String Unit :=
  if finalize then
    match onUtt with
    | Except.error e => Except.error e
    | Except.ok _ =>
      match emitState listener
          (if timedOut then "utterance_timeout" else "utterance_complete") with
      | Except.error e => Except.error e
      | Except.ok _ => emitState listener "idle"
  else Except.ok ()

/-! ## The bounded frame queue (claim C9)

Both capture backends enqueue into a queue.Queue of capacity 50 with
put_nowait; on a full queue the callback backend (audio.py lines 52-64)
prints an overflow warning, drops the oldest frame and retries, while the
arecord reader (audio.py lines 160-170) drops the oldest frame and retries
with no warning. The Bool result records whether the warning was printed. -/
def cbEnqueue (q : List (List ℚ)) (x : List ℚ) : List (List ℚ) × Bool :=
  if q.length < 50 then (q ++ [x], false)
  else if q.tail.length < 50 then (q.tail ++ [x], true)
  else (q.tail, true)

def arecordEnqueue (q : List (List ℚ)) (x : List ℚ) : List (List ℚ) × Bool :=
  if q.length < 50 then (q ++ [x], false)
  else if q.tail.length < 50 then (q.tail ++ [x], false)
  else (q.tail, false)

/-! ## Claim theorems C10, C8, C2 -/

/-- C10: constructing ReSpeakerGate with speech_energy_high <= 1.0 and
speech_energy_low <= 1.0 silently replaces both thresholds with 50000.0 and
5000.0; the supplied values are kept exactly when at least one exceeds 1.0.
In particular the constructor defaults 0.45 / 0.25 are replaced. -/
theorem gate_threshold_backcompat_replacement (mode : String) (pims : ℤ)
    (h l : ℚ) (o c : ℤ) (rt : ℚ) (rhf : ℤ) :
    ((reSpeakerGateInit mode pims h l o c rt rhf).speechEnergyHigh,
      (reSpeakerGateInit mode pims h l o c rt rhf).speechEnergyLow) =
      (if h ≤ 1 ∧ l ≤ 1 then ((50000 : ℚ), (5000 : ℚ)) else (h, l)) ∧
    (reSpeakerGateInit "hybrid" 50 (45 / 100) (25 / 100) 2 5 (7 / 2000) 8).speechEnergyHigh
        = 50000 ∧
    (reSpeakerGateInit "hybrid" 50 (45 / 100) (25 / 100) 2 5 (7 / 2000) 8).speechEnergyLow
        = 5000 := by
  refine ⟨?_, by norm_num [reSpeakerGateInit], by norm_num [reSpeakerGateInit]⟩
  by_cases hc : h ≤ 1 ∧ l ≤ 1 <;> simp [reSpeakerGateInit, hc]

/-- C8 counterexample: construction with an invalid (non-positive)
open_consecutive_polls count of 0 does not fail; the gate is built with the
value silently adjusted to 1. Likewise a negative engine hold-frame count is
silently adjusted to 0 rather than rejected (see speechEngineInit below). -/
theorem gate_init_clamps_cx :
    (reSpeakerGateInit "hybrid" 50 (45 / 100) (25 / 100) 0 5 (7 / 2000) 8).openConsecutivePolls
      = 1 ∧
    (reSpeakerGateInit "hybrid" 50 (45 / 100) (25 / 100) 0 (-2) (7 / 2000) (-9)).closeConsecutivePolls
      = 1 ∧
    (reSpeakerGateInit "hybrid" 50 (45 / 100) (25 / 100) 0 (-2) (-1) (-9)).rmsThreshold
      = 0 := by
  norm_num [reSpeakerGateInit]

/-- C8 amended: invalid configuration values never make gate construction
fail; they are silently clamped into valid ranges (consecutive-poll counts to
at least 1, the rms threshold to at least 0, the poll interval to at least
0.01 s), as witnessed by the clamped bounds holding for all inputs. -/
theorem gate_init_total_clamped (mode : String) (pims : ℤ) (h l : ℚ)
    (o c : ℤ) (rt : ℚ) (rhf : ℤ) :
    1 ≤ (reSpeakerGateInit mode pims h l o c rt rhf).openConsecutivePolls ∧
    1 ≤ (reSpeakerGateInit mode pims h l o c rt rhf).closeConsecutivePolls ∧
    0 ≤ (reSpeakerGateInit mode pims h l o c rt rhf).rmsThreshold ∧
    1 / 100 ≤ (reSpeakerGateInit mode pims h l o c rt rhf).pollIntervalS := by
  refine ⟨?_, ?_, ?_, ?_⟩ <;> simp [reSpeakerGateInit]

/-- C2: in hybrid mode with an available hardware backend, is_open returns the
rms-hysteresis verdict while no hardware energy reading has ever been
recorded, and returns exactly the hardware-derived state once one exists;
every successful poll records a reading, and is_open itself never erases it. -/
theorem hybrid_gate_defers_to_hardware (cfg : ReSpeakerGateCfg) (st : RGateSt)
    (frame : List ℚ) (e : ℚ) :
    ((reSpeakerIsOpen { cfg with mode := "hybrid" } true st frame).1 =
      match st.lastEnergy with
      | none => (rmsOpen cfg.rmsThreshold cfg.rmsHoldFrames st.rmsHold frame).1
      | some _ => st.xvfOpen) ∧
    (pollStep cfg e st).lastEnergy = some e ∧
    (reSpeakerIsOpen { cfg with mode := "hybrid" } true st frame).2.lastEnergy
      = st.lastEnergy := by
  refine ⟨?_, ?_, ?_⟩
  · cases hE : st.lastEnergy <;>
      simp [reSpeakerIsOpen, hE]
  · by_cases h1 : cfg.speechEnergyHigh ≤ e <;>
      by_cases h2 : e ≤ cfg.speechEnergyLow <;>
        simp [pollStep, h1, h2]
  · cases hE : st.lastEnergy <;> simp [reSpeakerIsOpen, hE]

theorem hitCount_append (p : ℚ → Bool) (n : ℕ) (es : List ℚ) (e : ℚ) :
    hitCount p n (es ++ [e]) = if p e then hitCount p n es + 1 else 0 := by
  induction es generalizing n with
  | nil => rfl
  | cons a as ih =>
    simp only [List.cons_append, hitCount]
    exact ih (if p a then n + 1 else 0)

theorem hitCount_le (p : ℚ → Bool) (n : ℕ) (es : List ℚ) :
    hitCount p n es ≤ n + es.length := by
  induction es generalizing n with
  | nil => simp [hitCount]
  | cons a as ih =>
    simp only [hitCount, List.length_cons]
    have hite : (if p a then n + 1 else 0) ≤ n + 1 := by split <;> omega
    have := ih (if p a then n + 1 else 0)
    omega

theorem hitCount_suffix (p : ℚ → Bool) (es : List ℚ) :
    ∀ (n k : ℕ), k ≤ hitCount p n es → k ≤ es.length →
      (es.drop (es.length - k)).all p = true := by
  induction es using List.reverseRecOn with
  | nil =>
    intro n k _ h2
    simp only [List.length_nil, Nat.le_zero] at h2
    subst h2
    simp
  | append_singleton as a ih =>
    intro n k h1 h2
    rw [hitCount_append] at h1
    cases hb : p a with
    | false =>
      rw [hb] at h1
      simp at h1
      subst h1
      simp
    | true =>
      rw [hb] at h1
      simp at h1
      match k with
      | 0 => simp
      | k' + 1 =>
        have hk' : k' ≤ hitCount p n as := by omega
        have hlen : k' ≤ as.length := by
          simp only [List.length_append, List.length_cons, List.length_nil] at h2
          omega
        have hIH := ih n k' hk' hlen
        have hdrop : (as ++ [a]).length - (k' + 1) = as.length - k' := by
          simp only [List.length_append, List.length_cons, List.length_nil]
          omega
        rw [hdrop, List.drop_append_of_le_length (by omega)]
        simp only [List.all_append, hIH, List.all_cons, List.all_nil, hb,
          Bool.and_true, Bool.true_and]

theorem list_all_implies {p q : ℚ → Bool} (h : ∀ x, p x = true → q x = true)
    (l : List ℚ) (hl : l.all p = true) : l.all q = true := by
  simp only [List.all_eq_true] at *
  exact fun x hx => h x (hl x hx)

theorem pollRun_append (cfg : ReSpeakerGateCfg) (st : RGateSt)
    (es fs : List ℚ) :
    pollRun cfg st (es ++ fs) = pollRun cfg (pollRun cfg st es) fs := by
  induction es generalizing st with
  | nil => rfl
  | cons a as ih =>
    simp only [List.cons_append, pollRun]
    exact ih (pollStep cfg a st)

theorem pollStep_openHits (cfg : ReSpeakerGateCfg) (e : ℚ) (st : RGateSt) :
    (pollStep cfg e st).xvfOpenHits =
      if cfg.speechEnergyHigh ≤ e then st.xvfOpenHits + 1 else 0 := by
  by_cases h1 : cfg.speechEnergyHigh ≤ e <;>
    by_cases h2 : e ≤ cfg.speechEnergyLow <;>
      simp [pollStep, h1, h2]

theorem pollStep_closeHits (cfg : ReSpeakerGateCfg) (e : ℚ) (st : RGateSt) :
    (pollStep cfg e st).xvfCloseHits =
      if ¬ cfg.speechEnergyHigh ≤ e ∧ e ≤ cfg.speechEnergyLow
        then st.xvfCloseHits + 1 else 0 := by
  by_cases h1 : cfg.speechEnergyHigh ≤ e <;>
    by_cases h2 : e ≤ cfg.speechEnergyLow <;>
      simp [pollStep, h1, h2]

theorem pollRun_openHits (cfg : ReSpeakerGateCfg) (st : RGateSt) (es : List ℚ) :
    (pollRun cfg st es).xvfOpenHits =
      hitCount (fun x => decide (cfg.speechEnergyHigh ≤ x)) st.xvfOpenHits es := by
  induction es generalizing st with
  | nil => rfl
  | cons e es ih =>
    rw [pollRun, ih, hitCount]
    by_cases h : cfg.speechEnergyHigh ≤ e <;>
      simp [pollStep_openHits, h]

theorem pollRun_closeHits (cfg : ReSpeakerGateCfg) (st : RGateSt) (es : List ℚ) :
    (pollRun cfg st es).xvfCloseHits =
      hitCount
        (fun x => !(decide (cfg.speechEnergyHigh ≤ x)) && decide (x ≤ cfg.speechEnergyLow))
        st.xvfCloseHits es := by
  induction es generalizing st with
  | nil => rfl
  | cons e es ih =>
    rw [pollRun, ih, hitCount]
    by_cases h1 : cfg.speechEnergyHigh ≤ e <;>
      by_cases h2 : e ≤ cfg.speechEnergyLow <;>
        simp [pollStep_closeHits, h1, h2]

theorem pollStep_opens (cfg : ReSpeakerGateCfg) (e : ℚ) (st : RGateSt)
    (hopen : (pollStep cfg e st).xvfOpen = true) (hclosed : st.xvfOpen = false) :
    cfg.speechEnergyHigh ≤ e ∧ cfg.openConsecutivePolls ≤ st.xvfOpenHits + 1 := by
  by_cases h1 : cfg.speechEnergyHigh ≤ e
  · refine ⟨h1, ?_⟩
    by_cases h3 : cfg.openConsecutivePolls ≤ st.xvfOpenHits + 1
    · exact h3
    · simp [pollStep, h1, h3, hclosed] at hopen
  · exfalso
    by_cases h2 : e ≤ cfg.speechEnergyLow
    · simp only [pollStep, h1, if_false, h2, if_true] at hopen
      by_cases h3 : cfg.closeConsecutivePolls ≤ st.xvfCloseHits + 1 <;>
        simp [h3, hclosed] at hopen
    · simp [pollStep, h1, h2, hclosed] at hopen

theorem pollStep_closes (cfg : ReSpeakerGateCfg) (e : ℚ) (st : RGateSt)
    (hcl : (pollStep cfg e st).xvfOpen = false) (hop : st.xvfOpen = true) :
    (¬ cfg.speechEnergyHigh ≤ e ∧ e ≤ cfg.speechEnergyLow) ∧
      cfg.closeConsecutivePolls ≤ st.xvfCloseHits + 1 := by
  by_cases h1 : cfg.speechEnergyHigh ≤ e
  · exfalso
    by_cases h3 : cfg.openConsecutivePolls ≤ st.xvfOpenHits + 1 <;>
      simp [pollStep, h1, h3, hop] at hcl
  · by_cases h2 : e ≤ cfg.speechEnergyLow
    · refine ⟨⟨h1, h2⟩, ?_⟩
      by_cases h3 : cfg.closeConsecutivePolls ≤ st.xvfCloseHits + 1
      · exact h3
      · simp [pollStep, h1, h2, h3, hop] at hcl
    · exfalso
      simp [pollStep, h1, h2, hop] at hcl

/-- C3: over any run of successful polls from the initial gate state, the
hardware-derived state flips closed-to-open only at a poll where the trailing
open_consecutive_polls polls all had energy at or above high, flips
open-to-closed only where the trailing close_consecutive_polls polls all had
energy at or below low, and a poll with energy strictly between low and high
zeroes both counters and leaves the open/closed state unchanged. -/
theorem poll_hysteresis_consecutive (cfg : ReSpeakerGateCfg) (es : List ℚ)
    (e : ℚ) (st : RGateSt) :
    ((pollRun cfg rGateInitSt es).xvfOpen = false →
      (pollRun cfg rGateInitSt (es ++ [e])).xvfOpen = true →
      cfg.openConsecutivePolls ≤ (es ++ [e]).length ∧
        ((es ++ [e]).drop ((es ++ [e]).length - cfg.openConsecutivePolls)).all
          (fun x => decide (cfg.speechEnergyHigh ≤ x)) = true) ∧
    ((pollRun cfg rGateInitSt es).xvfOpen = true →
      (pollRun cfg rGateInitSt (es ++ [e])).xvfOpen = false →
      cfg.closeConsecutivePolls ≤ (es ++ [e]).length ∧
        ((es ++ [e]).drop ((es ++ [e]).length - cfg.closeConsecutivePolls)).all
          (fun x => decide (x ≤ cfg.speechEnergyLow)) = true) ∧
    (cfg.speechEnergyLow < e → e < cfg.speechEnergyHigh →
      (pollStep cfg e st).xvfOpen = st.xvfOpen ∧
      (pollStep cfg e st).xvfOpenHits = 0 ∧
      (pollStep cfg e st).xvfCloseHits = 0) := by
  refine ⟨?_, ?_, ?_⟩
  · intro hC hO
    rw [pollRun_append] at hO
    simp only [pollRun] at hO
    obtain ⟨hhi, hN⟩ := pollStep_opens cfg e (pollRun cfg rGateInitSt es) hO hC
    have hinv : (pollRun cfg rGateInitSt es).xvfOpenHits =
        hitCount (fun x => decide (cfg.speechEnergyHigh ≤ x)) 0 es :=
      pollRun_openHits cfg rGateInitSt es
    have hcount : cfg.openConsecutivePolls ≤
        hitCount (fun x => decide (cfg.speechEnergyHigh ≤ x)) 0 (es ++ [e]) := by
      rw [hitCount_append]
      split
      · omega
      · next hcond => simp [hhi] at hcond
    have hlen : cfg.openConsecutivePolls ≤ (es ++ [e]).length := by
      have := hitCount_le (fun x => decide (cfg.speechEnergyHigh ≤ x)) 0 (es ++ [e])
      omega
    exact ⟨hlen,
      hitCount_suffix _ (es ++ [e]) 0 cfg.openConsecutivePolls hcount hlen⟩
  · intro hO hC
    rw [pollRun_append] at hC
    simp only [pollRun] at hC
    obtain ⟨⟨hh, hl⟩, hM⟩ := pollStep_closes cfg e (pollRun cfg rGateInitSt es) hC hO
    have hinv : (pollRun cfg rGateInitSt es).xvfCloseHits =
        hitCount
          (fun x => !(decide (cfg.speechEnergyHigh ≤ x)) && decide (x ≤ cfg.speechEnergyLow))
          0 es :=
      pollRun_closeHits cfg rGateInitSt es
    have hcount : cfg.closeConsecutivePolls ≤
        hitCount
          (fun x => !(decide (cfg.speechEnergyHigh ≤ x)) && decide (x ≤ cfg.speechEnergyLow))
          0 (es ++ [e]) := by
      rw [hitCount_append]
      split
      · omega
      · next hcond => simp [hh, hl] at hcond
    have hlen : cfg.closeConsecutivePolls ≤ (es ++ [e]).length := by
      have := hitCount_le
        (fun x => !(decide (cfg.speechEnergyHigh ≤ x)) && decide (x ≤ cfg.speechEnergyLow))
        0 (es ++ [e])
      omega
    have hall := hitCount_suffix
      (fun x => !(decide (cfg.speechEnergyHigh ≤ x)) && decide (x ≤ cfg.speechEnergyLow))
      (es ++ [e]) 0 cfg.closeConsecutivePolls hcount hlen
    refine ⟨hlen, list_all_implies ?_ _ hall⟩
    intro x hx
    simp only [Bool.and_eq_true, decide_eq_true_eq] at hx ⊢
    exact hx.2
  · intro h1 h2
    have hh : ¬ cfg.speechEnergyHigh ≤ e := not_le.mpr h2
    have hl : ¬ e ≤ cfg.speechEnergyLow := not_le.mpr h1
    simp [pollStep, hh, hl]

theorem gateCfgEval :
    reSpeakerGateInit "hybrid" 50 (45 / 100) (25 / 100) 2 5 (7 / 2000) 8 =
      { mode := "hybrid", pollIntervalS := 1 / 20, speechEnergyHigh := 50000,
        speechEnergyLow := 5000, openConsecutivePolls := 2, closeConsecutivePolls := 5,
        rmsThreshold := 7 / 2000, rmsHoldFrames := 8 } := by
  norm_num [reSpeakerGateInit, ReSpeakerGateCfg.mk.injEq, max_def]
  decide

theorem poll_hysteresis_consecutive_witness :
    ((reSpeakerGateInit "hybrid" 50 (45 / 100) (25 / 100) 2 5 (7 / 2000) 8).openConsecutivePolls
        ≤ ([(60000 : ℚ)] ++ [60000]).length ∧
      (([(60000 : ℚ)] ++ [60000]).drop
          (([(60000 : ℚ)] ++ [60000]).length -
            (reSpeakerGateInit "hybrid" 50 (45 / 100) (25 / 100) 2 5 (7 / 2000) 8).openConsecutivePolls)).all
        (fun x =>
          decide ((reSpeakerGateInit "hybrid" 50 (45 / 100) (25 / 100) 2 5 (7 / 2000) 8).speechEnergyHigh ≤ x))
        = true) ∧
    ((reSpeakerGateInit "hybrid" 50 (45 / 100) (25 / 100) 2 5 (7 / 2000) 8).closeConsecutivePolls
        ≤ ([(60000 : ℚ), 60000, 1000, 1000, 1000, 1000] ++ [1000]).length ∧
      (([(60000 : ℚ), 60000, 1000, 1000, 1000, 1000] ++ [1000]).drop
          (([(60000 : ℚ), 60000, 1000, 1000, 1000, 1000] ++ [1000]).length -
            (reSpeakerGateInit "hybrid" 50 (45 / 100) (25 / 100) 2 5 (7 / 2000) 8).closeConsecutivePolls)).all
        (fun x =>
          decide (x ≤ (reSpeakerGateInit "hybrid" 50 (45 / 100) (25 / 100) 2 5 (7 / 2000) 8).speechEnergyLow))
        = true) ∧
    ((pollStep (reSpeakerGateInit "hybrid" 50 (45 / 100) (25 / 100) 2 5 (7 / 2000) 8) 20000
          { xvfOpen := true, xvfOpenHits := 1, xvfCloseHits := 2, lastEnergy := some 3,
            rmsHold := 0, lastGateOpen := false }).xvfOpen =
        ({ xvfOpen := true, xvfOpenHits := 1, xvfCloseHits := 2, lastEnergy := some 3,
            rmsHold := 0, lastGateOpen := false } : RGateSt).xvfOpen ∧
      (pollStep (reSpeakerGateInit "hybrid" 50 (45 / 100) (25 / 100) 2 5 (7 / 2000) 8) 20000
          { xvfOpen := true, xvfOpenHits := 1, xvfCloseHits := 2, lastEnergy := some 3,
            rmsHold := 0, lastGateOpen := false }).xvfOpenHits = 0 ∧
      (pollStep (reSpeakerGateInit "hybrid" 50 (45 / 100) (25 / 100) 2 5 (7 / 2000) 8) 20000
          { xvfOpen := true, xvfOpenHits := 1, xvfCloseHits := 2, lastEnergy := some 3,
            rmsHold := 0, lastGateOpen := false }).xvfCloseHits = 0) := by
  refine ⟨(poll_hysteresis_consecutive _ [60000] 60000 rGateInitSt).1 ?_ ?_,
    (poll_hysteresis_consecutive _ [60000, 60000, 1000, 1000, 1000, 1000] 1000
        rGateInitSt).2.1 ?_ ?_,
    (poll_hysteresis_consecutive _ [] 20000 _).2.2 ?_ ?_⟩ <;>
    rw [gateCfgEval] <;> decide

/-! ## Claim C4: single-threshold hold-based hysteresis of the rms gate -/
theorem rmsGateRun_quiet (thr : ℚ) (hf : ℕ) (hthr : 0 < thr) :
    ∀ (qs : List (List ℚ)) (h : ℕ), (∀ q ∈ qs, rmsSq q < thr ^ 2) → qs.length ≤ h →
      (rmsGateRun thr hf h qs).1.all (fun b => b) = true ∧
      (rmsGateRun thr hf h qs).2 = h - qs.length := by
  intro qs
  induction qs with
  | nil => exact fun h _ _ => ⟨rfl, by simp [rmsGateRun]⟩
  | cons q qs ih =>
    intro h hq hlen
    have hq0 : rmsSq q < thr ^ 2 := hq q (List.mem_cons_self q qs)
    have hnot : ¬ thr ≤ 0 := not_le.mpr hthr
    have hnot2 : ¬ thr ^ 2 ≤ rmsSq q := not_le.mpr hq0
    have hpos : 0 < h := by
      simp only [List.length_cons] at hlen
      omega
    have hstep : rmsGateIsOpen thr hf h q = (true, h - 1) := by
      simp [rmsGateIsOpen, hnot, hnot2, hpos]
    have hlen2 : qs.length ≤ h - 1 := by
      simp only [List.length_cons] at hlen
      omega
    obtain ⟨ih1, ih2⟩ := ih (h - 1) (fun x hx => hq x (List.mem_cons_of_mem _ hx)) hlen2
    refine ⟨?_, ?_⟩
    · simp [rmsGateRun, hstep, ih1]
    · simp only [rmsGateRun, hstep, ih2, List.length_cons]
      omega

/-- C4: with a positive threshold, a frame at or above the threshold opens the
rms gate and reloads the hold counter to hold_frames; the following
hold_frames below-threshold frames all report open, after them the counter is
exhausted, and the next below-threshold frame reports closed. Both copies of
the rms gate (SpeechEngine and ReSpeakerGate) open and reload identically. -/
theorem rms_gate_hold_hysteresis (thr : ℚ) (hf hold : ℕ) (loud q : List ℚ)
    (qs : List (List ℚ)) (hthr : 0 < thr) (hloud : thr ^ 2 ≤ rmsSq loud)
    (hqs : ∀ x ∈ qs, rmsSq x < thr ^ 2) (hlen : qs.length = hf)
    (hq : rmsSq q < thr ^ 2) :
    rmsGateIsOpen thr hf hold loud = (true, hf) ∧
    rmsOpen thr hf hold loud = (true, hf) ∧
    (rmsGateRun thr hf hf qs).1.all (fun b => b) = true ∧
    (rmsGateRun thr hf hf qs).2 = 0 ∧
    (rmsGateIsOpen thr hf (rmsGateRun thr hf hf qs).2 q).1 = false := by
  have hnot : ¬ thr ≤ 0 := not_le.mpr hthr
  obtain ⟨h1, h2⟩ := rmsGateRun_quiet thr hf hthr qs hf hqs (le_of_eq hlen)
  have h3 : (rmsGateRun thr hf hf qs).2 = 0 := by
    rw [h2, hlen, Nat.sub_self]
  refine ⟨by simp [rmsGateIsOpen, hnot, hloud], by simp [rmsOpen, hnot, hloud],
    h1, h3, ?_⟩
  rw [h3]
  simp [rmsGateIsOpen, hnot, not_le.mpr hq]

theorem rms_gate_hold_hysteresis_witness :
    rmsGateIsOpen (7 / 2000) 8 0 [1 / 10] = (true, 8) ∧
    rmsOpen (7 / 2000) 8 0 [1 / 10] = (true, 8) ∧
    (rmsGateRun (7 / 2000) 8 8 (List.replicate 8 [0])).1.all (fun b => b) = true ∧
    (rmsGateRun (7 / 2000) 8 8 (List.replicate 8 [0])).2 = 0 ∧
    (rmsGateIsOpen (7 / 2000) 8 (rmsGateRun (7 / 2000) 8 8 (List.replicate 8 [0])).2 [0]).1
      = false :=
  rms_gate_hold_hysteresis (7 / 2000) 8 0 [1 / 10] [0] (List.replicate 8 [0])
    (by norm_num)
    (by norm_num [rmsSq])
    (fun x hx => by rw [List.eq_of_mem_replicate hx]; norm_num [rmsSq])
    (by simp)
    (by norm_num [rmsSq])

theorem prerollEvict_spec (M : ℕ) : ∀ (fr : List (List ℚ)) (sm : ℕ),
    sm = (fr.map List.length).sum →
    (prerollEvict M fr sm).2 = ((prerollEvict M fr sm).1.map List.length).sum ∧
    (prerollEvict M fr sm).2 ≤ M := by
  intro fr
  induction fr with
  | nil =>
    intro sm h
    simp only [List.map_nil, List.sum_nil] at h
    subst h
    exact ⟨rfl, by simp [prerollEvict]⟩
  | cons old rest ih =>
    intro sm h
    by_cases hgt : M < sm
    · have h2 : sm - old.length = (rest.map List.length).sum := by
        simp only [List.map_cons, List.sum_cons] at h
        omega
      simpa [prerollEvict, hgt] using ih (sm - old.length) h2
    · refine ⟨?_, ?_⟩ <;> simp only [prerollEvict, hgt, if_false]
      · exact h
      · omega

theorem appendPreroll_inv (M : ℕ) (st : PrerollState) (f : List ℚ)
    (h1 : st.samples = (st.frames.map List.length).sum) (h2 : st.samples ≤ M) :
    (appendPreroll M st f).samples = ((appendPreroll M st f).frames.map List.length).sum ∧
    (appendPreroll M st f).samples ≤ M := by
  by_cases hM : M = 0
  · have hid : appendPreroll M st f = st := by simp [appendPreroll, hM]
    rw [hid]
    exact ⟨h1, h2⟩
  · have hsum : st.samples + f.length = ((st.frames ++ [f]).map List.length).sum := by
      simp [h1]
    have hspec := prerollEvict_spec M (st.frames ++ [f]) (st.samples + f.length) hsum
    simpa [appendPreroll, hM] using hspec

theorem appendAll_inv (M : ℕ) : ∀ (fs : List (List ℚ)) (st : PrerollState),
    st.samples = (st.frames.map List.length).sum → st.samples ≤ M →
    (appendAll M st fs).samples = ((appendAll M st fs).frames.map List.length).sum ∧
    (appendAll M st fs).samples ≤ M := by
  intro fs
  induction fs with
  | nil => exact fun st h1 h2 => ⟨h1, h2⟩
  | cons f fs ih =>
    intro st h1 h2
    obtain ⟨g1, g2⟩ := appendPreroll_inv M st f h1 h2
    exact ih (appendPreroll M st f) g1 g2

/-- C6: after any sequence of pre-roll appends starting from the empty buffer
of a freshly constructed engine, the total buffered sample count never
exceeds the configured cap, which itself is at most
preroll_ms * sample_rate / 1000. -/
theorem preroll_samples_bounded (sampleRate : ℕ) (mu ig thr : ℚ) (hfZ : ℤ)
    (pe : Bool) (msZ : ℤ) (fs : List (List ℚ)) :
    (appendAll (speechEngineInit sampleRate mu ig thr hfZ pe msZ).wakePrerollMaxSamples
        emptyPreroll fs).samples
      ≤ (speechEngineInit sampleRate mu ig thr hfZ pe msZ).wakePrerollMs
          * (speechEngineInit sampleRate mu ig thr hfZ pe msZ).sampleRate / 1000 := by
  have hb := (appendAll_inv
    (speechEngineInit sampleRate mu ig thr hfZ pe msZ).wakePrerollMaxSamples
    fs emptyPreroll rfl (Nat.zero_le _)).2
  have hM : (speechEngineInit sampleRate mu ig thr hfZ pe msZ).wakePrerollMaxSamples
      = (speechEngineInit sampleRate mu ig thr hfZ pe msZ).wakePrerollMs
          * (speechEngineInit sampleRate mu ig thr hfZ pe msZ).sampleRate / 1000 := by
    simp only [speechEngineInit]
    rw [Nat.mul_comm]
  exact le_of_le_of_eq hb hM

/-- C1 counterexample: on a gate-closed frame in ListenWakeword the engine
performs no call at all on the wake detector or the VAD: the call trace is
empty, and in particular no clear operation is invoked, contradicting the
claim that clear is called on every gate-closed frame. (The detector here
even answers every process call with a detection, and still receives none.) -/
theorem closed_frame_trace_empty_cx :
    (listenFrameStep (speechEngineInit 16000 10 1 (7 / 2000) 8 true 400)
        (fun _ => true) engineInitSt false [1]).2 = [] ∧
    ¬ Call.vadClear ∈ (listenFrameStep (speechEngineInit 16000 10 1 (7 / 2000) 8 true 400)
        (fun _ => true) engineInitSt false [1]).2 := by
  constructor
  · rfl
  · intro h
    simp [listenFrameStep] at h

/-- C1 amended: while the engine is in ListenWakeword and the wake gate
reports closed, the wakeword detector never receives a process call on that
frame, and no clear is issued to it or to the VAD either: apart from the
pre-roll append the frame is skipped entirely, so the emitted call trace is
empty (clear is issued only on gate-open frames whose process call yields no
detection). -/
theorem closed_frame_no_detector_calls (cfg : SpeechEngineCfg)
    (det : List ℚ → Bool) (st : EngineSt) (frame : List ℚ) :
    (listenFrameStep cfg det st false frame).2 = [] := by
  simp [listenFrameStep]

/-- C5: whenever the utterance is finalized with the VAD reporting a ready
segment, the emitted end reason is the VAD reason, even when the timeout
condition is true on the same frame; the timeout reason is emitted exactly
when the VAD has no ready segment and the timeout elapsed, and nothing is
emitted otherwise. -/
theorem finalize_reason_vad_first (tmo : Bool) (va : List ℚ) (st : EngineSt) :
    endReason (captureUtteranceStep true tmo va st).2 = some "vad" ∧
    endReason (captureUtteranceStep false true va st).2 = some "timeout" ∧
    (captureUtteranceStep false false va st).2 = [] := by
  refine ⟨?_, ?_, ?_⟩ <;> simp [captureUtteranceStep, endReason]

/-- C7 counterexample: an exception thrown by the wake-event callback on a
detected frame, and one thrown by the utterance-ended callback on a
finalizing frame, are not caught: they propagate out of the frame-processing
code, contradicting the claim that every listener exception is recovered
locally. -/
theorem wake_callback_error_propagates_cx :
    listenWakewordEffects (Except.error "boom") none true = Except.error "boom" ∧
    captureUtteranceEffects (Except.error "boom") none true false
      = Except.error "boom" :=
  ⟨rfl, rfl⟩

/-- C7 amended: an exception thrown by the state-change listener is caught
and logged inside _emit_state and never escapes (the loop continues, and both
effect flows still succeed around a throwing state listener); but exceptions
from the wake-event callback and the utterance-ended callback are not caught
and propagate out of the frame-processing loop. -/
theorem listener_fault_isolation (f : String → Except String Unit) (s : String)
    (listener : Option (String → Except String Unit)) (e : String) (tmo : Bool) :
    emitState (some f) s = Except.ok () ∧
    listenWakewordEffects (Except.error e) listener true = Except.error e ∧
    captureUtteranceEffects (Except.error e) listener true tmo = Except.error e ∧
    listenWakewordEffects (Except.ok ()) (some f) true = Except.ok true ∧
    captureUtteranceEffects (Except.ok ()) (some f) true tmo = Except.ok () := by
  refine ⟨?_, rfl, rfl, ?_, ?_⟩
  · cases hfs : f s <;> simp [emitState, hfs]
  · cases h1 : f "wake_detected" <;>
      cases h2 : f "capturing_utterance" <;>
        simp [listenWakewordEffects, emitState, h1, h2]
  · cases h1 : f (if tmo then "utterance_timeout" else "utterance_complete") <;>
      cases h2 : f "idle" <;>
        simp [captureUtteranceEffects, emitState, h1, h2]

/-- C9 counterexample: on a full queue the arecord backend drops the oldest
frame and inserts the new one but records no warning, contradicting the
claim that a warning is recorded for every capture backend. -/
theorem arecord_overflow_no_warning_cx :
    (arecordEnqueue (List.replicate 50 ([] : List ℚ)) [1]).2 = false ∧
    (arecordEnqueue (List.replicate 50 ([] : List ℚ)) [1]).1
      = List.replicate 49 ([] : List ℚ) ++ [[1]] ∧
    (cbEnqueue (List.replicate 50 ([] : List ℚ)) [1]).2 = true := by
  refine ⟨?_, ?_, ?_⟩ <;> decide

/-- C9 amended: for both backends, enqueueing never blocks and never grows
the queue beyond 50 frames, and on a full queue the oldest frame is removed
before the new frame is inserted; the callback backend records a warning
when this happens, the arecord backend does not. -/
theorem queue_drop_oldest_bounded (q : List (List ℚ)) (x : List ℚ)
    (hq : q.length ≤ 50) :
    (cbEnqueue q x).1.length ≤ 50 ∧
    (arecordEnqueue q x).1.length ≤ 50 ∧
    (q.length = 50 →
      (cbEnqueue q x).1 = q.tail ++ [x] ∧ (cbEnqueue q x).2 = true ∧
      (arecordEnqueue q x).1 = q.tail ++ [x] ∧ (arecordEnqueue q x).2 = false) := by
  by_cases h : q.length < 50
  · refine ⟨?_, ?_, fun hfull => absurd hfull (by omega)⟩
    · simp only [cbEnqueue, h, if_true, List.length_append, List.length_cons,
        List.length_nil]
      omega
    · simp only [arecordEnqueue, h, if_true, List.length_append, List.length_cons,
        List.length_nil]
      omega
  · have hfull : q.length = 50 := by omega
    have htl : q.length - 1 < 50 := by omega
    refine ⟨?_, ?_, fun _ => ⟨?_, ?_, ?_, ?_⟩⟩ <;>
      simp [cbEnqueue, arecordEnqueue, h, htl] <;>
      omega

theorem queue_drop_oldest_bounded_witness :
    (cbEnqueue (List.replicate 50 ([] : List ℚ)) [2]).1.length ≤ 50 ∧
    (arecordEnqueue (List.replicate 50 ([] : List ℚ)) [2]).1.length ≤ 50 ∧
    ((List.replicate 50 ([] : List ℚ)).length = 50 →
      (cbEnqueue (List.replicate 50 ([] : List ℚ)) [2]).1
          = (List.replicate 50 ([] : List ℚ)).tail ++ [[2]] ∧
      (cbEnqueue (List.replicate 50 ([] : List ℚ)) [2]).2 = true ∧
      (arecordEnqueue (List.replicate 50 ([] : List ℚ)) [2]).1
          = (List.replicate 50 ([] : List ℚ)).tail ++ [[2]] ∧
      (arecordEnqueue (List.replicate 50 ([] : List ℚ)) [2]).2 = false) :=
  queue_drop_oldest_bounded (List.replicate 50 []) [2] (by simp)

end HomeAutomation
